import Mathlib

/-!
Verification development for the pomodoro-panda repository.

This file shallowly embeds the core of the timer application:
the timer state machine of src/contexts/TimerContext.tsx, the
IndexedDB-backed task / completed-task / settings stores of
src/utils/database.ts, and the service-worker wait-job pipeline.
Machine integers (JavaScript numbers holding epoch milliseconds,
durations and counters) are modelled as Int or Nat; fallible
IndexedDB operations return Except; an IndexedDB transaction is
modelled as an all-or-nothing state transformation, which encodes
the atomic commit/abort guarantee of the platform.
-/

/-- Timer phase, from TIMER_TYPES in src/constants/timerConstants.ts
(values "work", "break", "longBreak"). -/
inductive TimerType where
  | WORK
  | BREAK
  | LONG_BREAK
deriving DecidableEq

/-- Timer settings bundle, from the TimerSettings type: the three durations
are stored in milliseconds, sessionsUntilLongBreak is a count. -/
structure TimerSettings where
  workDuration : Int
  breakDuration : Int
  longBreakDuration : Int
  sessionsUntilLongBreak : Int
deriving DecidableEq

/-- DEFAULT_TIMER_SETTINGS from src/constants/timerConstants.ts:
work 90 min, break 30 min, long break 60 min, 4 sessions until long break. -/
def DEFAULT_TIMER_SETTINGS : TimerSettings :=
  { workDuration := 90 * 60 * 1000
    breakDuration := 30 * 60 * 1000
    longBreakDuration := 60 * 60 * 1000
    sessionsUntilLongBreak := 4 }

/-- In-memory timer state, from the TimerState type used by
src/contexts/TimerContext.tsx. Times are epoch milliseconds. -/
structure TimerState where
  timeLeft : Int
  isRunning : Bool
  hasStarted : Bool
  timerType : TimerType
  activeTaskId : Option String
  startTime : Option Int
  expectedEndTime : Option Int
  sessionsCompleted : Int
  hasCompleted : Bool
deriving DecidableEq

/-- JavaScript truthiness of a nullable number: null/undefined and 0 are falsy.
Used for the guards `!state.startTime` and `!state.expectedEndTime`. -/
def jsFalsyTime : Option Int → Bool
  | none => true
  | some v => v = 0

/-- getNextTimer from src/contexts/TimerContext.tsx (lines 102-121):
from WORK, the next session count is sessionsCompleted + 1; if it is
divisible by settings.sessionsUntilLongBreak the next phase is LONG_BREAK,
otherwise BREAK; from BREAK or LONG_BREAK the next phase is always WORK.
Returns the next phase type together with the duration the source pairs
with it. -/
def getNextTimer (state : TimerState) (settings : TimerSettings) : TimerType × Int :=
  if state.timerType = TimerType.WORK then
    let nextSessions := state.sessionsCompleted + 1
    if nextSessions % settings.sessionsUntilLongBreak = 0 then
      (TimerType.LONG_BREAK, settings.longBreakDuration)
    else
      (TimerType.BREAK, settings.breakDuration)
  else
    (TimerType.WORK, settings.workDuration)

/-- Result of one invocation of the updateTimer deadline check: the state
left behind by the dispatches the check performs, the snapshot passed to
the completion callback when it fires (none when it does not), and whether
the check scheduled another animation frame. -/
structure UpdateStep where
  state : TimerState
  fired : Option TimerState
  rescheduled : Bool
deriving DecidableEq

/-- updateTimer from src/contexts/TimerContext.tsx (lines 124-158), as a
step function on the timer state at wall-clock time now. The source
computes remaining = max(0, expectedEndTime - now) (Math.ceil is the
identity on these integer millisecond values). When remaining ≤ 0 it
builds a finalState snapshot with hasCompleted := true, isRunning := false,
timeLeft := 0, passes it to the registered callback and returns WITHOUT
dispatching any state update and without scheduling the next frame; the
persistent state is left unchanged. Otherwise it dispatches
UPDATE_TIME_LEFT when the displayed value changed, and schedules the next
frame. -/
def updateTimer (state : TimerState) (now : Int) : UpdateStep :=
  if ¬ state.isRunning ∨ jsFalsyTime state.startTime ∨ jsFalsyTime state.expectedEndTime then
    { state := state, fired := none, rescheduled := false }
  else
    let endT := state.expectedEndTime.getD 0
    let remaining := max 0 (endT - now)
    let newTimeLeft := remaining
    if newTimeLeft ≤ 0 then
      { state := state
        fired := some { state with hasCompleted := true, isRunning := false, timeLeft := 0 }
        rescheduled := false }
    else if ¬ newTimeLeft = state.timeLeft then
      { state := { state with timeLeft := newTimeLeft }, fired := none, rescheduled := true }
    else
      { state := state, fired := none, rescheduled := true }

/-- switchTimer from src/contexts/TimerContext.tsx (lines 287-323). It
computes the next phase with getNextTimer (which reads the provider
settings prop) and then resets the timer state, taking durations from the
userSettings hook value: for WORK it sets timeLeft to
userSettings.workDuration * 60 * 1000 and increments sessionsCompleted;
for BREAK and LONG_BREAK it sets timeLeft to the corresponding duration
unchanged and keeps sessionsCompleted. -/
def switchTimer (state : TimerState) (settings userSettings : TimerSettings) : TimerState :=
  let nextType := (getNextTimer state settings).1
  if nextType = TimerType.WORK then
    { state with
      isRunning := false, hasStarted := false, activeTaskId := none,
      startTime := none, expectedEndTime := none, hasCompleted := false,
      timeLeft := userSettings.workDuration * 60 * 1000,
      timerType := TimerType.WORK,
      sessionsCompleted := state.sessionsCompleted + 1 }
  else if nextType = TimerType.BREAK then
    { state with
      isRunning := false, hasStarted := false, activeTaskId := none,
      startTime := none, expectedEndTime := none, hasCompleted := false,
      timeLeft := userSettings.breakDuration,
      timerType := TimerType.BREAK,
      sessionsCompleted := state.sessionsCompleted }
  else
    { state with
      isRunning := false, hasStarted := false, activeTaskId := none,
      startTime := none, expectedEndTime := none, hasCompleted := false,
      timeLeft := userSettings.longBreakDuration,
      timerType := TimerType.LONG_BREAK,
      sessionsCompleted := state.sessionsCompleted }

/-- A running WORK state whose deadline (expectedEndTime = 1100) has passed
at now = 1100; input for the C2 evaluation. -/
def c2state : TimerState :=
  { timeLeft := 1000, isRunning := true, hasStarted := true,
    timerType := TimerType.WORK, activeTaskId := some "t1",
    startTime := some 100, expectedEndTime := some 1100,
    sessionsCompleted := 0, hasCompleted := false }

/-- Settings with all durations already in milliseconds (25/5/15 minutes),
as stored by the settings page and the settings resolver. -/
def msSettings : TimerSettings :=
  { workDuration := 1500000, breakDuration := 300000,
    longBreakDuration := 900000, sessionsUntilLongBreak := 4 }

/-- A BREAK state about to switch into WORK; input for the C4 evaluation. -/
def c4state : TimerState :=
  { timeLeft := 300000, isRunning := false, hasStarted := false,
    timerType := TimerType.BREAK, activeTaskId := none,
    startTime := none, expectedEndTime := none,
    sessionsCompleted := 0, hasCompleted := false }

/-- A WORK state with sessionsCompleted = 0; input for the C5 evaluation. -/
def c5workState : TimerState :=
  { timeLeft := 1500000, isRunning := false, hasStarted := false,
    timerType := TimerType.WORK, activeTaskId := none,
    startTime := none, expectedEndTime := none,
    sessionsCompleted := 0, hasCompleted := false }

/-- A BREAK state with sessionsCompleted = 0; second input for the C5
evaluation. -/
def c5breakState : TimerState :=
  { timeLeft := 300000, isRunning := false, hasStarted := false,
    timerType := TimerType.BREAK, activeTaskId := none,
    startTime := none, expectedEndTime := none,
    sessionsCompleted := 0, hasCompleted := false }

/-- Task as passed to the completion pipeline, from the Task interface in
src/types/task.ts (fields the database layer reads or spreads into the
completed record; endTime is overwritten by the pipeline and omitted).
Named AppTask here because the name Task is taken by the core library. -/
structure AppTask where
  id : String
  category : String
  description : String
  duration : Option Nat
  completed : Bool
  pomodoros : Nat
deriving DecidableEq

/-- Stored active task, from the TaskRecord interface in
src/types/database.ts: a Task with mandatory id and order. -/
structure TaskRecord where
  id : String
  category : String
  description : String
  completed : Bool
  pomodoros : Nat
  order : Nat
deriving DecidableEq

/-- Stored completed-task record, from the CompletedTaskRecord interface in
src/types/database.ts. -/
structure CompletedTaskRecord where
  id : String
  category : String
  description : String
  duration : Option Nat
  completed : Bool
  endTime : Nat
  pomodorosCompleted : Nat
  order : Nat
deriving DecidableEq

/-- The two object stores touched by the task pipeline of
src/utils/database.ts: the tasks store and the completedTasks store, both
keyed by id. -/
structure DBState where
  tasks : List TaskRecord
  completedTasks : List CompletedTaskRecord
deriving DecidableEq

instance {e a : Type} [DecidableEq e] [DecidableEq a] : DecidableEq (Except e a) := fun x y =>
  match x, y with
  | Except.ok u, Except.ok v =>
    if h : u = v then isTrue (by rw [h])
    else isFalse (fun hc => h (Except.noConfusion hc id))
  | Except.error u, Except.error v =>
    if h : u = v then isTrue (by rw [h])
    else isFalse (fun hc => h (Except.noConfusion hc id))
  | Except.ok _, Except.error _ => isFalse (fun hc => Except.noConfusion hc)
  | Except.error _, Except.ok _ => isFalse (fun hc => Except.noConfusion hc)

/-- Failure modes of the embedded database operations: the explicit
"Task ID is required" throw, and an IndexedDB request error (the only one
reachable in this model is the duplicate-key failure of store.add). -/
inductive DBError where
  | taskIdRequired
  | constraintError
deriving DecidableEq

/-- The completed record built by completeOnePomodoro in
src/utils/database.ts: the spread of the completedTask argument with id
suffixed by the current timestamp, endTime set to now, pomodorosCompleted
set to 1 and the given order. -/
def mkCompletedRecord (completedTask : AppTask) (now : Nat) (ord : Nat) : CompletedTaskRecord :=
  { id := completedTask.id ++ "_" ++ toString now
    category := completedTask.category
    description := completedTask.description
    duration := completedTask.duration
    completed := completedTask.completed
    endTime := now
    pomodorosCompleted := 1
    order := ord }

/-- completeOnePomodoro from src/utils/database.ts (tasksDB, lines
167-296), at wall-clock time now. The readwrite transaction over tasks
and completedTasks is modelled as an all-or-nothing state transformation:
a request failure (duplicate key on completedStore.add) aborts the
transaction, so the error branches return the untouched prior state
implicitly by returning Except.error. When the task is missing the record
is still added (order 0); when present, a record with the original order
is added and the task is updated in place to pomodoros - 1 when at least
1 remains, otherwise deleted. -/
def completeOnePomodoro (taskId : String) (completedTask : AppTask) (now : Nat)
    (s : DBState) : Except DBError DBState :=
  if taskId = "" then Except.error DBError.taskIdRequired
  else
    match s.tasks.find? (fun t => t.id == taskId) with
    | none =>
      let record := mkCompletedRecord completedTask now 0
      if s.completedTasks.any (fun r => r.id == record.id) then
        Except.error DBError.constraintError
      else
        Except.ok { s with completedTasks := record :: s.completedTasks }
    | some originalTask =>
      let record := mkCompletedRecord completedTask now originalTask.order
      if s.completedTasks.any (fun r => r.id == record.id) then
        Except.error DBError.constraintError
      else
        let remainingPomodoros : Int := (originalTask.pomodoros : Int) - 1
        if 1 ≤ remainingPomodoros then
          Except.ok
            { tasks := s.tasks.map (fun t =>
                if t.id == taskId then { originalTask with pomodoros := originalTask.pomodoros - 1 } else t)
              completedTasks := record :: s.completedTasks }
        else
          Except.ok
            { tasks := s.tasks.filter (fun t => ! (t.id == taskId))
              completedTasks := record :: s.completedTasks }

/-- Task payload of tasksDB.add, from the BaseTask type in
src/types/database.ts (a Task without id and order). -/
structure BaseTask where
  category : String
  description : String
  duration : Option Nat
  completed : Bool
  pomodoros : Nat
deriving DecidableEq

/-- Ascending comparison on the order field, the comparator
(a.order || 0) - (b.order || 0) used by tasksDB.getAll. -/
def byOrder (a b : TaskRecord) : Prop := a.order ≤ b.order

instance : DecidableRel byOrder := fun a b => Nat.decLe a.order b.order

instance : IsTotal TaskRecord byOrder := ⟨fun a b => Nat.le_total a.order b.order⟩

instance : IsTrans TaskRecord byOrder := ⟨fun _ _ _ h1 h2 => Nat.le_trans h1 h2⟩

/-- tasksDB.add from src/utils/database.ts (lines 83-111): reads all
tasks, folds Math.max over (t.order || 0) with initial value -1, stores
the new task with order maxOrder + 1 and the freshly generated id (the
crypto.randomUUID result is a parameter here). store.add fails on a
duplicate key. -/
def tasksDB.add (newId : String) (task : BaseTask) (tasks : List TaskRecord) :
    Except DBError (List TaskRecord) :=
  let maxOrder : Int := tasks.foldl (fun m t => max m ((t.order : Nat) : Int)) (-1)
  let taskWithId : TaskRecord :=
    { id := newId
      category := task.category
      description := task.description
      completed := task.completed
      pomodoros := task.pomodoros
      order := (maxOrder + 1).toNat }
  if tasks.any (fun t => t.id == newId) then Except.error DBError.constraintError
  else Except.ok (tasks ++ [taskWithId])

/-- tasksDB.getAll from src/utils/database.ts (lines 113-127): returns the
stored tasks sorted ascending by the order field; the JavaScript
Array.prototype.sort with a numeric comparator is stable, modelled by the
stable insertion sort. -/
def tasksDB.getAll (tasks : List TaskRecord) : List TaskRecord :=
  List.insertionSort byOrder tasks

/-- Existing task for the C6 run: base task t1 with 3 pomodoros. -/
def c6task : TaskRecord :=
  { id := "t1", category := "cat", description := "d",
    completed := false, pomodoros := 3, order := 0 }

/-- Completion payload for the C6 run, base completed-record id c1. -/
def c6completed : AppTask :=
  { id := "c1", category := "cat", description := "d",
    duration := some 1500000, completed := true, pomodoros := 1 }

/-- Database with the single active task t1 and no completed records. -/
def c6db : DBState := { tasks := [c6task], completedTasks := [] }

/-- The settings object store of src/utils/database.ts, keyed by the
setting id; only the numeric timer settings are exercised by the embedded
operations, so values are integers. -/
abbrev SettingsStore := List (String × Int)

/-- isValidSettingKey from src/utils/databaseUtils.ts: membership in the
seven recognized setting keys. -/
def isValidSettingKey (key : String) : Bool :=
  key == "workDuration" || key == "breakDuration" || key == "longBreakDuration" ||
  key == "sessionsUntilLongBreak" || key == "addTasksToBottom" ||
  key == "autoStartBreaks" || key == "autoStartPomodoros"

/-- validateKey from src/utils/databaseUtils.ts: rejects an empty or
whitespace-only key (key.trim() is empty exactly when every character of
the key is whitespace, modelled with Char.isWhitespace). -/
def validateKeyOk (key : String) : Bool :=
  !(key == "") && !(key.toList.all (fun ch => ch.isWhitespace))

/-- Failure mode of the settings operations: the invalid-key rejection
raised before any store access. -/
inductive SettingsError where
  | invalidKey
deriving DecidableEq

/-- Raw keyed read of the settings store (store.get(key) returning the
value field of the record). -/
def getSettingValue (st : SettingsStore) (key : String) : Option Int :=
  (st.find? (fun p => p.1 == key)).map (fun p => p.2)

/-- Keyed put into the settings store (store.put with keyPath id):
replaces the record with the same key, inserts otherwise. -/
def putSetting (st : SettingsStore) (key : String) (v : Int) : SettingsStore :=
  if st.any (fun p => p.1 == key) then
    st.map (fun p => if p.1 == key then (key, v) else p)
  else st ++ [(key, v)]

/-- getSetting from settingsDB in src/utils/database.ts: validates the key
(validateKey, then isValidSettingKey), then reads the record and converts
the value (convertSettingValue applies Number(), the identity on the
numeric values modelled here). -/
def getSetting (st : SettingsStore) (key : String) : Except SettingsError (Option Int) :=
  if !(validateKeyOk key) then Except.error SettingsError.invalidKey
  else if !(isValidSettingKey key) then Except.error SettingsError.invalidKey
  else Except.ok (getSettingValue st key)

/-- setSetting from settingsDB in src/utils/database.ts: the same key
validation followed by a keyed put. -/
def setSetting (st : SettingsStore) (key : String) (v : Int) : Except SettingsError SettingsStore :=
  if !(validateKeyOk key) then Except.error SettingsError.invalidKey
  else if !(isValidSettingKey key) then Except.error SettingsError.invalidKey
  else Except.ok (putSetting st key v)

/-- convertToMs inside getTimerSettings: a value below 1000 is assumed to
be minutes and multiplied by 60 * 1000. -/
def convertToMs (value : Int) : Int :=
  if value < 1000 then value * 60 * 1000 else value

/-- ensureMilliseconds inside setTimerSettings: the same normalization
applied before writing. -/
def ensureMilliseconds (value : Int) : Int :=
  if value < 1000 then value * 60 * 1000 else value

/-- getTimerSettings from settingsDB in src/utils/database.ts: reads the
four keys independently, defaults each absent value, normalizes the three
durations with convertToMs and leaves sessionsUntilLongBreak untouched;
the surrounding try/catch falls back to the full default bundle when any
read rejects (unreachable for these four literal keys, which always pass
validation). -/
def getTimerSettings (st : SettingsStore) : TimerSettings :=
  match getSetting st "workDuration", getSetting st "breakDuration",
      getSetting st "longBreakDuration", getSetting st "sessionsUntilLongBreak" with
  | Except.ok w, Except.ok b, Except.ok l, Except.ok n =>
    { workDuration := convertToMs (w.getD DEFAULT_TIMER_SETTINGS.workDuration)
      breakDuration := convertToMs (b.getD DEFAULT_TIMER_SETTINGS.breakDuration)
      longBreakDuration := convertToMs (l.getD DEFAULT_TIMER_SETTINGS.longBreakDuration)
      sessionsUntilLongBreak := n.getD DEFAULT_TIMER_SETTINGS.sessionsUntilLongBreak }
  | _, _, _, _ => DEFAULT_TIMER_SETTINGS

/-- The Partial TimerSettings argument of setTimerSettings: each field is
written only when supplied. -/
structure TimerSettingsUpdate where
  workDuration : Option Int
  breakDuration : Option Int
  longBreakDuration : Option Int
  sessionsUntilLongBreak : Option Int
deriving DecidableEq

/-- setTimerSettings from settingsDB in src/utils/database.ts: writes each
supplied field through setSetting, applying ensureMilliseconds to the
three durations but never to sessionsUntilLongBreak. The four literal
keys always pass setSetting validation, so the Except wrapper is elided
here. -/
def setTimerSettings (settings : TimerSettingsUpdate) (st : SettingsStore) : SettingsStore :=
  let st1 := match settings.workDuration with
    | some v => putSetting st "workDuration" (ensureMilliseconds v)
    | none => st
  let st2 := match settings.breakDuration with
    | some v => putSetting st1 "breakDuration" (ensureMilliseconds v)
    | none => st1
  let st3 := match settings.longBreakDuration with
    | some v => putSetting st2 "longBreakDuration" (ensureMilliseconds v)
    | none => st2
  match settings.sessionsUntilLongBreak with
  | some v => putSetting st3 "sessionsUntilLongBreak" v
  | none => st3

/-- Status of a background wait job, from the WaitJob type of the service
worker idxdb module. -/
inductive JobStatus where
  | active
  | completed
deriving DecidableEq

/-- Background wait job persisted by the service worker. -/
structure WaitJob where
  id : String
  endTime : Nat
  createdAt : Nat
  description : String
  status : JobStatus
deriving DecidableEq

/-- Observable state of the service-worker job pipeline: the persisted
jobs plus the accumulated JOB_COMPLETED broadcasts (id and description
pairs) and the persistent user-facing alerts shown by job id. -/
structure SWState where
  jobs : List WaitJob
  completedMessages : List (String × String)
  shownAlerts : List String
deriving DecidableEq

/-- Modelled from the spec: storeJob of the idxdb module is not under src;
per the spec it persists a wait job keyed by id so the job survives the
background context being torn down (put semantics: replace the record
with the same id, insert otherwise). -/
def storeJob (job : WaitJob) (jobs : List WaitJob) : List WaitJob :=
  if jobs.any (fun k => k.id == job.id) then
    jobs.map (fun k => if k.id == job.id then job else k)
  else jobs ++ [job]

/-- completeJob from the service-worker timer module: unconditionally sets
the job status to completed, persists it with storeJob, broadcasts a
JOB_COMPLETED message (id and description) to every client and shows a
persistent notification; it never inspects the current status before
acting. -/
def completeJob (job : WaitJob) (s : SWState) : SWState :=
  let j := { job with status := JobStatus.completed }
  { jobs := storeJob j s.jobs
    completedMessages := s.completedMessages ++ [(j.id, j.description)]
    shownAlerts := s.shownAlerts ++ [j.id] }

/-- Keyed lookup of a persisted wait job (getJobById). -/
def findJob (jobs : List WaitJob) (id : String) : Option WaitJob :=
  jobs.find? (fun k => k.id == id)

/-- Concrete active wait job for the C9 evaluation. -/
def c9job : WaitJob :=
  { id := "job-1", endTime := 1000, createdAt := 0,
    description := "w", status := JobStatus.active }

/-- Service-worker state holding the single active job job-1. -/
def c9s0 : SWState :=
  { jobs := [c9job], completedMessages := [], shownAlerts := [] }

/-- Existing tasks for the C10 witness: two tasks with orders 0 and 5. -/
def c10tasks : List TaskRecord :=
  [{ id := "a", category := "c", description := "d",
     completed := false, pomodoros := 1, order := 0 },
   { id := "b", category := "c", description := "d",
     completed := false, pomodoros := 2, order := 5 }]

/-- New-task payload for the C10 witness. -/
def c10base : BaseTask :=
  { category := "c", description := "e", duration := none,
    completed := false, pomodoros := 1 }

/-- Claim C2: the claim says the deadline check, when now reaches
expectedEndTime, sets hasCompleted := true, isRunning := false and
timeLeft := 0 and never fires the completion callback a second time from
repeated checks. Evaluating updateTimer at a concrete expired running
state shows the code instead fires the callback with a completed snapshot
while leaving the persistent state completely unchanged (isRunning still
true, hasCompleted still false, timeLeft untouched), so a repeated check
on that same state fires the callback again. -/
theorem updateTimer_completion_not_committed :
    (updateTimer c2state 1100).fired =
      some { c2state with hasCompleted := true, isRunning := false, timeLeft := 0 }
    ∧ (updateTimer c2state 1100).state = c2state
    ∧ (updateTimer c2state 1100).state.isRunning = true
    ∧ (updateTimer c2state 1100).state.hasCompleted = false
    ∧ (updateTimer (updateTimer c2state 1100).state 1200).fired =
      some { c2state with hasCompleted := true, isRunning := false, timeLeft := 0 } := by
  decide

/-- Claim C3: getNextTimer returns LONG_BREAK from WORK exactly when
(sessionsCompleted + 1) is divisible by sessionsUntilLongBreak, BREAK from
WORK otherwise, and WORK from either break phase; with
sessionsUntilLongBreak = 4 the next phase out of WORK is LONG_BREAK
precisely on every 4th completed session. -/
theorem getNextTimer_cadence (s : TimerState) (st : TimerSettings) :
    getNextTimer s st =
      (if s.timerType = TimerType.WORK then
        (if (s.sessionsCompleted + 1) % st.sessionsUntilLongBreak = 0 then
          (TimerType.LONG_BREAK, st.longBreakDuration)
        else
          (TimerType.BREAK, st.breakDuration))
      else (TimerType.WORK, st.workDuration))
    ∧ ((getNextTimer { s with timerType := TimerType.WORK }
          { st with sessionsUntilLongBreak := 4 }).1 = TimerType.LONG_BREAK
        ↔ (s.sessionsCompleted + 1) % 4 = 0) := by
  constructor
  · by_cases h : s.timerType = TimerType.WORK
    · by_cases hm : (s.sessionsCompleted + 1) % st.sessionsUntilLongBreak = 0 <;>
        simp [getNextTimer, h, hm]
    · simp [getNextTimer, h]
  · by_cases hm : (s.sessionsCompleted + 1) % (4 : Int) = 0 <;>
      simp [getNextTimer, hm]

/-- Claim C4: the claim says switchTimer resets timeLeft to the full
configured duration in milliseconds of the next phase, workDuration when
the next phase is WORK. Evaluating switchTimer out of a BREAK state with
workDuration = 1500000 ms (25 minutes, the unit every store write uses)
shows the code multiplies the already-millisecond value by 60 * 1000
again, producing 90000000000 instead of 1500000, while the BREAK and
LONG_BREAK branches use the configured duration unchanged. -/
theorem switchTimer_work_duration_bug :
    (switchTimer c4state msSettings msSettings).timerType = TimerType.WORK
    ∧ (switchTimer c4state msSettings msSettings).timeLeft = 90000000000
    ∧ ¬ (switchTimer c4state msSettings msSettings).timeLeft = msSettings.workDuration
    ∧ (switchTimer c5workState msSettings msSettings).timeLeft = msSettings.breakDuration := by
  decide

/-- Claim C5: the claim (and the doc comment on switchTimer itself) says
sessionsCompleted is incremented exactly when the phase being left is
WORK. Evaluating switchTimer shows the opposite: leaving WORK (next phase
BREAK) keeps sessionsCompleted at 0, while leaving BREAK (next phase WORK)
increments it to 1. -/
theorem switchTimer_sessions_increment_bug :
    (switchTimer c5workState msSettings msSettings).timerType = TimerType.BREAK
    ∧ (switchTimer c5workState msSettings msSettings).sessionsCompleted = 0
    ∧ (switchTimer c5breakState msSettings msSettings).timerType = TimerType.WORK
    ∧ (switchTimer c5breakState msSettings msSettings).sessionsCompleted = 1 := by
  decide

/-- The find? of a keyed update: mapping the put over a list replaces the
first record whose id matches the key with the updated record. -/
theorem find?_map_update (tid : String) (upd : TaskRecord) (hupd : upd.id = tid) :
    ∀ (l : List TaskRecord) (orig : TaskRecord),
      l.find? (fun t => t.id == tid) = some orig →
      (l.map (fun t => if t.id == tid then upd else t)).find? (fun t => t.id == tid) =
        some upd := by
  intro l
  induction l with
  | nil => intro orig h; simp at h
  | cons a t ih =>
    intro orig h
    by_cases ha : a.id = tid
    · rw [List.map_cons, List.find?_cons_of_pos _ (by simp [ha, hupd])]
      simp [ha]
    · rw [List.find?_cons_of_neg _ (by simp [ha])] at h
      rw [List.map_cons, List.find?_cons_of_neg _ (by simp [ha])]
      exact ih orig h

/-- The find? of a keyed delete: after filtering out the record with the
given id, no record with that id remains. -/
theorem find?_filter_ne (tid : String) :
    ∀ l : List TaskRecord,
      (l.filter (fun t => ! (t.id == tid))).find? (fun t => t.id == tid) = none := by
  intro l
  induction l with
  | nil => rfl
  | cons a t ih =>
    by_cases ha : (a.id == tid) = true
    · simp [List.filter_cons, ha, ih]
    · have ha2 : (a.id == tid) = false := by simpa using ha
      simp [List.filter_cons, ha2, ih]

/-- Claim C1: when the active task with the given id exists with pomodoro
count p and the generated completed-record id is fresh, completeOnePomodoro
returns success with exactly one new completed record prepended, the task
updated in place to p - 1 when p - 1 is at least 1, and the task deleted
when p - 1 is at most 0; when the insert would fail (duplicate record id)
the whole transaction surfaces an error and, the operation being an
all-or-nothing Except value, neither effect is applied. -/
theorem completeOnePomodoro_found_atomic
    (s : DBState) (c : AppTask) (tid : String) (now : Nat) (orig : TaskRecord)
    (hTid : ¬ tid = "")
    (hFound : s.tasks.find? (fun t => t.id == tid) = some orig) :
    (s.completedTasks.any (fun r => r.id == c.id ++ "_" ++ toString now) = false →
      ∃ s2, completeOnePomodoro tid c now s = Except.ok s2
        ∧ s2.completedTasks = mkCompletedRecord c now orig.order :: s.completedTasks
        ∧ s2.completedTasks.length = s.completedTasks.length + 1
        ∧ (2 ≤ orig.pomodoros →
            s2.tasks.find? (fun t => t.id == tid) =
              some { orig with pomodoros := orig.pomodoros - 1 }
            ∧ s2.tasks.length = s.tasks.length)
        ∧ (orig.pomodoros ≤ 1 → s2.tasks.find? (fun t => t.id == tid) = none))
    ∧ (s.completedTasks.any (fun r => r.id == c.id ++ "_" ++ toString now) = true →
        completeOnePomodoro tid c now s = Except.error DBError.constraintError) := by
  have hOrigId : orig.id = tid := by
    have := List.find?_some hFound
    simpa using this
  constructor
  · intro hFresh
    by_cases hp : 2 ≤ orig.pomodoros
    · refine ⟨DBState.mk
        (s.tasks.map (fun t =>
          if t.id == tid then { orig with pomodoros := orig.pomodoros - 1 } else t))
        (mkCompletedRecord c now orig.order :: s.completedTasks),
        ?_, rfl, by simp, ?_, ?_⟩
      · have hrem : (1 : Int) ≤ (orig.pomodoros : Int) - 1 := by omega
        simp [completeOnePomodoro, hTid, hFound, mkCompletedRecord, hFresh, hrem]
      · intro _
        refine ⟨find?_map_update tid _ (by simpa using hOrigId) s.tasks orig hFound, ?_⟩
        simp
      · intro hle
        exact absurd hle (by omega)
    · refine ⟨DBState.mk
        (s.tasks.filter (fun t => ! (t.id == tid)))
        (mkCompletedRecord c now orig.order :: s.completedTasks),
        ?_, rfl, by simp, ?_, ?_⟩
      · have hrem : ¬ (1 : Int) ≤ (orig.pomodoros : Int) - 1 := by omega
        simp [completeOnePomodoro, hTid, hFound, mkCompletedRecord, hFresh, hrem]
      · intro hp2
        exact absurd hp2 hp
      · intro _
        exact find?_filter_ne tid s.tasks
  · intro hDup
    simp [completeOnePomodoro, hTid, hFound, mkCompletedRecord, hDup]

/-- Witness for C1: a concrete run of the theorem on the c6 database, whose
task t1 has 3 pomodoros and whose completed store is empty. -/
theorem completeOnePomodoro_found_atomic_witness :
    (¬ "t1" = "")
    ∧ (c6db.tasks.find? (fun t => t.id == "t1") = some c6task)
    ∧ (c6db.completedTasks.any
        (fun r => r.id == c6completed.id ++ "_" ++ toString 100) = false →
      ∃ s2, completeOnePomodoro "t1" c6completed 100 c6db = Except.ok s2
        ∧ s2.completedTasks = mkCompletedRecord c6completed 100 c6task.order :: c6db.completedTasks
        ∧ s2.completedTasks.length = c6db.completedTasks.length + 1
        ∧ (2 ≤ c6task.pomodoros →
            s2.tasks.find? (fun t => t.id == "t1") =
              some { c6task with pomodoros := c6task.pomodoros - 1 }
            ∧ s2.tasks.length = c6db.tasks.length)
        ∧ (c6task.pomodoros ≤ 1 → s2.tasks.find? (fun t => t.id == "t1") = none)) := by
  refine ⟨by decide, by decide, ?_⟩
  exact (completeOnePomodoro_found_atomic c6db c6completed "t1" 100 c6task
    (by decide) (by decide)).1

/-- Counterexample for C6: completing the same base task id twice within
the same millisecond (now = 100 both times) does not yield two records
with distinct ids; the second insert generates the same id c1_100 and the
transaction fails with a duplicate-key error. -/
theorem completeOnePomodoro_same_ms_collision :
    ∃ s1, completeOnePomodoro "t1" c6completed 100 c6db = Except.ok s1
      ∧ completeOnePomodoro "t1" c6completed 100 s1 =
          Except.error DBError.constraintError := by
  refine ⟨DBState.mk [{ c6task with pomodoros := 2 }]
            [mkCompletedRecord c6completed 100 0], ?_, ?_⟩ <;> decide

/-- Claim C6 as amended: the completed-record id is always the base id
suffixed with the current timestamp (no existing-id check is performed
before choosing it), so ids from different milliseconds differ, but when
the formed id already exists in completedTasks the insert fails and the
transaction surfaces a duplicate-key error instead of storing a second
record under a fresh id. -/
theorem completedRecordId_always_suffixed
    (s : DBState) (c : AppTask) (tid : String) (now : Nat)
    (hTid : ¬ tid = "")
    (hDup : s.completedTasks.any (fun r => r.id == c.id ++ "_" ++ toString now) = true) :
    completeOnePomodoro tid c now s = Except.error DBError.constraintError
    ∧ (∀ ord, (mkCompletedRecord c now ord).id = c.id ++ "_" ++ toString now)
    ∧ ¬ (mkCompletedRecord c6completed 100 0).id = (mkCompletedRecord c6completed 101 0).id := by
  refine ⟨?_, fun ord => rfl, by decide⟩
  cases hf : s.tasks.find? (fun t => t.id == tid) with
  | none => simp [completeOnePomodoro, hTid, hf, mkCompletedRecord, hDup]
  | some orig => simp [completeOnePomodoro, hTid, hf, mkCompletedRecord, hDup]

/-- Witness for the amended C6: the concrete database holding the record
c1_100 makes a same-millisecond completion fail. -/
theorem completedRecordId_always_suffixed_witness :
    (¬ "t1" = "")
    ∧ (DBState.mk [{ c6task with pomodoros := 2 }] [mkCompletedRecord c6completed 100 0]).completedTasks.any
        (fun r => r.id == c6completed.id ++ "_" ++ toString 100) = true
    ∧ (completeOnePomodoro "t1" c6completed 100
        (DBState.mk [{ c6task with pomodoros := 2 }] [mkCompletedRecord c6completed 100 0]) =
          Except.error DBError.constraintError
      ∧ (∀ ord, (mkCompletedRecord c6completed 100 ord).id =
          c6completed.id ++ "_" ++ toString 100)
      ∧ ¬ (mkCompletedRecord c6completed 100 0).id = (mkCompletedRecord c6completed 101 0).id) := by
  refine ⟨by decide, by decide, ?_⟩
  exact completedRecordId_always_suffixed
    (DBState.mk [{ c6task with pomodoros := 2 }] [mkCompletedRecord c6completed 100 0])
    c6completed "t1" 100 (by decide) (by decide)

/-- Claim C7: when no active task with the given id exists (and the
generated record id is fresh), completeOnePomodoro does not fail: it
leaves the tasks store untouched, inserts one completed record whose order
defaults to 0, and resolves successfully. -/
theorem completeOnePomodoro_missing_recovered
    (s : DBState) (c : AppTask) (tid : String) (now : Nat)
    (hTid : ¬ tid = "")
    (hMissing : s.tasks.find? (fun t => t.id == tid) = none)
    (hFresh : s.completedTasks.any (fun r => r.id == c.id ++ "_" ++ toString now) = false) :
    ∃ s2, completeOnePomodoro tid c now s = Except.ok s2
      ∧ s2.tasks = s.tasks
      ∧ s2.completedTasks = mkCompletedRecord c now 0 :: s.completedTasks
      ∧ (mkCompletedRecord c now 0).order = 0 := by
  refine ⟨{ s with completedTasks := mkCompletedRecord c now 0 :: s.completedTasks },
    ?_, rfl, rfl, rfl⟩
  simp [completeOnePomodoro, hTid, hMissing, mkCompletedRecord, hFresh]

/-- Witness for C7: completing against an empty database records the
completion with order 0. -/
theorem completeOnePomodoro_missing_recovered_witness :
    (¬ "t9" = "")
    ∧ ((DBState.mk [] []).tasks.find? (fun t => t.id == "t9") = none)
    ∧ ((DBState.mk [] []).completedTasks.any
        (fun r => r.id == c6completed.id ++ "_" ++ toString 100) = false)
    ∧ ∃ s2, completeOnePomodoro "t9" c6completed 100 (DBState.mk [] []) = Except.ok s2
        ∧ s2.tasks = (DBState.mk [] []).tasks
        ∧ s2.completedTasks = mkCompletedRecord c6completed 100 0 :: (DBState.mk [] []).completedTasks
        ∧ (mkCompletedRecord c6completed 100 0).order = 0 := by
  refine ⟨by decide, by decide, by decide, ?_⟩
  exact completeOnePomodoro_missing_recovered (DBState.mk [] []) c6completed "t9" 100
    (by decide) (by decide) (by decide)

/-- Reading back the key just written by a keyed put returns the written
value. -/
theorem getSettingValue_put_same (st : SettingsStore) (key : String) (v : Int) :
    getSettingValue (putSetting st key v) key = some v := by
  unfold putSetting
  by_cases hany : st.any (fun p => p.1 == key) = true
  · rw [if_pos hany]
    unfold getSettingValue
    induction st with
    | nil => simp at hany
    | cons a t ih =>
      by_cases ha : a.1 = key
      · rw [List.map_cons, List.find?_cons_of_pos _ (by simp [ha])]
        simp [ha]
      · have hany2 : t.any (fun p => p.1 == key) = true := by
          simpa [List.any_cons, ha] using hany
        rw [List.map_cons, List.find?_cons_of_neg _ (by simp [ha])]
        exact ih hany2
  · rw [if_neg hany]
    unfold getSettingValue
    induction st with
    | nil => simp
    | cons a t ih =>
      have ha : ¬ a.1 = key := by
        intro hc
        exact hany (by simp [List.any_cons, hc])
      have hany2 : ¬ t.any (fun p => p.1 == key) = true := by
        intro hc
        exact hany (by simp [List.any_cons, hc])
      rw [List.cons_append, List.find?_cons_of_neg _ (by simp [ha])]
      exact ih hany2

/-- Mapping a keyed replacement over the store does not change the lookup
of any other key. -/
theorem find?_map_put (key key2 : String) (v : Int) (hne : ¬ key2 = key) :
    ∀ l : SettingsStore,
      (l.map (fun p => if p.1 == key then (key, v) else p)).find? (fun p => p.1 == key2)
        = l.find? (fun p => p.1 == key2) := by
  have hkk : ¬ key = key2 := fun hc => hne (Eq.symm hc)
  intro l
  induction l with
  | nil => rfl
  | cons a t ih =>
    by_cases ha : a.1 = key
    · rw [List.map_cons]
      have hmapped : (if (a.1 == key) = true then (key, v) else a) = (key, v) := by simp [ha]
      rw [hmapped, List.find?_cons_of_neg _ (by simp [hkk]),
        List.find?_cons_of_neg _ (by simp [ha, hkk]), ih]
    · rw [List.map_cons]
      have hmapped : (if (a.1 == key) = true then (key, v) else a) = a := by simp [ha]
      rw [hmapped]
      by_cases hb : a.1 = key2
      · rw [List.find?_cons_of_pos _ (by simp [hb]), List.find?_cons_of_pos _ (by simp [hb])]
      · rw [List.find?_cons_of_neg _ (by simp [hb]), List.find?_cons_of_neg _ (by simp [hb]), ih]

/-- Appending a record under a different key does not change the lookup of
another key. -/
theorem find?_append_single (key2 : String) (q : String × Int) (hq : ¬ q.1 = key2) :
    ∀ l : SettingsStore,
      (l ++ [q]).find? (fun p => p.1 == key2) = l.find? (fun p => p.1 == key2) := by
  have hq2 : (q.1 == key2) = false := by simp [hq]
  intro l
  induction l with
  | nil => simp [List.find?, hq2]
  | cons a t ih =>
    by_cases hb : a.1 = key2
    · rw [List.cons_append, List.find?_cons_of_pos _ (by simp [hb]),
        List.find?_cons_of_pos _ (by simp [hb])]
    · rw [List.cons_append, List.find?_cons_of_neg _ (by simp [hb]),
        List.find?_cons_of_neg _ (by simp [hb]), ih]

/-- A keyed put leaves reads of every other key unchanged. -/
theorem getSettingValue_put_other (st : SettingsStore) (key key2 : String) (v : Int)
    (hne : ¬ key2 = key) :
    getSettingValue (putSetting st key v) key2 = getSettingValue st key2 := by
  unfold putSetting getSettingValue
  by_cases hany : st.any (fun p => p.1 == key) = true
  · rw [if_pos hany, find?_map_put key key2 v hne st]
  · rw [if_neg hany, find?_append_single key2 (key, v) (fun hc => hne hc.symm) st]

/-- Reduction of getTimerSettings: the four literal keys always pass
validation, so the reads never reject and the match takes the ok branch. -/
theorem getTimerSettings_eq (s1 : SettingsStore) :
    getTimerSettings s1 =
      { workDuration :=
          convertToMs ((getSettingValue s1 "workDuration").getD DEFAULT_TIMER_SETTINGS.workDuration)
        breakDuration :=
          convertToMs ((getSettingValue s1 "breakDuration").getD DEFAULT_TIMER_SETTINGS.breakDuration)
        longBreakDuration :=
          convertToMs ((getSettingValue s1 "longBreakDuration").getD DEFAULT_TIMER_SETTINGS.longBreakDuration)
        sessionsUntilLongBreak :=
          (getSettingValue s1 "sessionsUntilLongBreak").getD DEFAULT_TIMER_SETTINGS.sessionsUntilLongBreak } :=
  rfl

/-- Reduction of setTimerSettings when only workDuration is supplied. -/
theorem setTimerSettings_work_eq (s1 : SettingsStore) (v : Int) :
    setTimerSettings (TimerSettingsUpdate.mk (some v) none none none) s1 =
      putSetting s1 "workDuration" (ensureMilliseconds v) :=
  rfl

/-- Reduction of setTimerSettings when only sessionsUntilLongBreak is
supplied; no ensureMilliseconds is applied on this path. -/
theorem setTimerSettings_sessions_eq (s1 : SettingsStore) (n : Int) :
    setTimerSettings (TimerSettingsUpdate.mk none none none (some n)) s1 =
      putSetting s1 "sessionsUntilLongBreak" n :=
  rfl

/-- Claim C8: writing workDuration = 1500000 and reading it back returns
1500000; a duration below 1000 supplied to setTimerSettings is stored
multiplied by 60 * 1000, and (when positive) reads back as that
millisecond value; sessionsUntilLongBreak round-trips unmultiplied for
every value. -/
theorem timerSettings_roundtrip (st : SettingsStore) (v n : Int) :
    (getTimerSettings (setTimerSettings (TimerSettingsUpdate.mk (some 1500000) none none none) st)).workDuration = 1500000
    ∧ (v < 1000 →
        getSettingValue (setTimerSettings (TimerSettingsUpdate.mk (some v) none none none) st)
          "workDuration" = some (v * 60 * 1000))
    ∧ (0 < v → v < 1000 →
        (getTimerSettings (setTimerSettings (TimerSettingsUpdate.mk (some v) none none none) st)).workDuration
          = v * 60 * 1000)
    ∧ (getTimerSettings (setTimerSettings (TimerSettingsUpdate.mk none none none (some n)) st)).sessionsUntilLongBreak = n := by
  refine ⟨?_, ?_, ?_, ?_⟩
  · rw [setTimerSettings_work_eq, getTimerSettings_eq]
    simp only [getSettingValue_put_same, Option.getD_some]
    norm_num [ensureMilliseconds, convertToMs]
  · intro hv
    rw [setTimerSettings_work_eq, getSettingValue_put_same]
    simp [ensureMilliseconds, hv]
  · intro hv0 hv
    rw [setTimerSettings_work_eq, getTimerSettings_eq]
    simp only [getSettingValue_put_same, Option.getD_some]
    have he : ensureMilliseconds v = v * 60 * 1000 := by simp [ensureMilliseconds, hv]
    rw [he, convertToMs, if_neg (by omega)]
  · rw [setTimerSettings_sessions_eq, getTimerSettings_eq]
    simp only [getSettingValue_put_same, Option.getD_some]

/-- Witness for C8: the round trip on the empty store with the example
values of the claim, 1500000 and 25 for durations and 4 for sessions. -/
theorem timerSettings_roundtrip_witness :
    (getTimerSettings (setTimerSettings (TimerSettingsUpdate.mk (some 1500000) none none none) [])).workDuration = 1500000
    ∧ getSettingValue (setTimerSettings (TimerSettingsUpdate.mk (some 25) none none none) [])
        "workDuration" = some (25 * 60 * 1000)
    ∧ (getTimerSettings (setTimerSettings (TimerSettingsUpdate.mk (some 25) none none none) [])).workDuration
        = 25 * 60 * 1000
    ∧ (getTimerSettings (setTimerSettings (TimerSettingsUpdate.mk none none none (some 4)) [])).sessionsUntilLongBreak = 4 := by
  refine ⟨(timerSettings_roundtrip [] 25 4).1, ?_, ?_, (timerSettings_roundtrip [] 25 4).2.2.2⟩
  · exact (timerSettings_roundtrip [] 25 4).2.1 (by norm_num)
  · exact (timerSettings_roundtrip [] 25 4).2.2.1 (by norm_num) (by norm_num)

/-- Storing a job and looking it up by its id returns exactly the stored
job, whether it replaced an existing record or was appended. -/
theorem find?_storeJob (j : WaitJob) :
    ∀ jobs : List WaitJob, findJob (storeJob j jobs) j.id = some j := by
  intro jobs
  unfold storeJob findJob
  by_cases hany : jobs.any (fun k => k.id == j.id) = true
  · rw [if_pos hany]
    induction jobs with
    | nil => simp at hany
    | cons a t ih =>
      by_cases ha : a.id = j.id
      · rw [List.map_cons, List.find?_cons_of_pos _ (by simp [ha])]
        simp [ha]
      · have hany2 : t.any (fun k => k.id == j.id) = true := by
          simpa [List.any_cons, ha] using hany
        rw [List.map_cons, List.find?_cons_of_neg _ (by simp [ha])]
        exact ih hany2
  · rw [if_neg hany]
    induction jobs with
    | nil => simp
    | cons a t ih =>
      have ha : ¬ a.id = j.id := fun hc => hany (by simp [List.any_cons, hc])
      have hany2 : ¬ t.any (fun k => k.id == j.id) = true := fun hc =>
        hany (by simp [List.any_cons, hc])
      rw [List.cons_append, List.find?_cons_of_neg _ (by simp [ha])]
      exact ih hany2

/-- Counterexample for C9: invoking the completion handler twice for the
same job broadcasts two completion messages, not one; the handler has no
status guard, so the second invocation does not no-op. -/
theorem completeJob_double_broadcast :
    (completeJob { c9job with status := JobStatus.completed }
        (completeJob c9job c9s0)).completedMessages.length = 2
    ∧ ¬ (completeJob { c9job with status := JobStatus.completed }
        (completeJob c9job c9s0)).completedMessages.length = 1
    ∧ findJob (completeJob { c9job with status := JobStatus.completed }
        (completeJob c9job c9s0)).jobs "job-1" = some { c9job with status := JobStatus.completed } := by
  decide

/-- Claim C9 as amended: completeJob performs its effects unconditionally —
every invocation appends one completion broadcast and re-stores the job as
completed — so two invocations for the same job broadcast two completion
messages while the persisted status does remain completed after both. -/
theorem completeJob_unconditional (job : WaitJob) (s : SWState) :
    (completeJob job s).completedMessages = s.completedMessages ++ [(job.id, job.description)]
    ∧ (completeJob { job with status := JobStatus.completed }
        (completeJob job s)).completedMessages.length = s.completedMessages.length + 2
    ∧ findJob (completeJob { job with status := JobStatus.completed }
        (completeJob job s)).jobs job.id = some { job with status := JobStatus.completed } := by
  refine ⟨rfl, by simp [completeJob], ?_⟩
  exact find?_storeJob { job with status := JobStatus.completed } (completeJob job s).jobs

/-- The fold computing maxOrder in tasksDB.add: the result is an upper
bound of the initial value and of every order in the list, and is attained
either by the initial value or by the order of some member. -/
theorem foldl_orderMax_spec :
    ∀ (l : List TaskRecord) (a : Int),
      a ≤ l.foldl (fun m t => max m ((t.order : Nat) : Int)) a
      ∧ (∀ u ∈ l, ((u.order : Nat) : Int) ≤ l.foldl (fun m t => max m ((t.order : Nat) : Int)) a)
      ∧ (l.foldl (fun m t => max m ((t.order : Nat) : Int)) a = a
          ∨ ∃ t ∈ l, l.foldl (fun m t => max m ((t.order : Nat) : Int)) a = ((t.order : Nat) : Int)) := by
  intro l
  induction l with
  | nil => intro a; exact ⟨le_refl a, by simp, Or.inl rfl⟩
  | cons h t ih =>
    intro a
    have IH := ih (max a ((h.order : Nat) : Int))
    rw [List.foldl_cons]
    refine ⟨le_trans (le_max_left _ _) IH.1, ?_, ?_⟩
    · intro u hu
      rcases List.mem_cons.mp hu with rfl | hu2
      · exact le_trans (le_max_right _ _) IH.1
      · exact IH.2.1 u hu2
    · rcases IH.2.2 with heq | hex
      · rcases le_total ((h.order : Nat) : Int) a with hle | hle
        · left
          rw [heq, max_eq_left hle]
        · right
          exact ⟨h, List.mem_cons_self h t, by rw [heq, max_eq_right hle]⟩
      · rcases hex with ⟨t2, ht2, heq⟩
        right
        exact ⟨t2, List.mem_cons_of_mem h ht2, heq⟩

/-- In a list sorted ascending by order, an element whose order strictly
exceeds the order of every other element is the last element. -/
theorem sorted_getLast?_of_strict_max (x : TaskRecord) :
    ∀ m : List TaskRecord, List.Sorted byOrder m → x ∈ m →
      (∀ y ∈ m, y = x ∨ y.order < x.order) → m.getLast? = some x := by
  intro m
  induction m with
  | nil => intro _ hx _; simp at hx
  | cons a t ih =>
    intro hs hx hmax
    cases t with
    | nil =>
      have hxa : x = a := by simpa using hx
      simp [hxa]
    | cons b t2 =>
      have hsorted2 : List.Sorted byOrder (b :: t2) := (List.sorted_cons.mp hs).2
      have hx2 : x ∈ b :: t2 := by
        rcases List.mem_cons.mp hx with hxa | hx2
        · rcases hmax b (by simp) with hbx | hlt
          · rw [hbx]
            exact List.mem_cons_self x t2
          · have hab : byOrder a b := (List.sorted_cons.mp hs).1 b (by simp)
            rw [← hxa] at hab
            exact absurd hab (by unfold byOrder; omega)
        · exact hx2
      have hmax2 : ∀ y ∈ b :: t2, y = x ∨ y.order < x.order :=
        fun y hy => hmax y (List.mem_cons_of_mem a hy)
      rw [List.getLast?_cons_cons]
      exact ih hsorted2 hx2 hmax2

/-- Claim C10: a task stored through tasksDB.add is assigned order equal
to 1 plus the greatest order among the existing tasks (0 when the store is
empty), its order strictly exceeds the order of every existing task, and
tasksDB.getAll — which always returns the store sorted ascending by order
— lists the new task last. -/
theorem tasksDB_add_order_getAll_last
    (tasks : List TaskRecord) (b : BaseTask) (newId : String)
    (hFresh : tasks.any (fun t => t.id == newId) = false) :
    ∃ nt : TaskRecord,
      tasksDB.add newId b tasks = Except.ok (tasks ++ [nt])
      ∧ nt.id = newId
      ∧ (tasks = [] → nt.order = 0)
      ∧ (¬ tasks = [] → ∃ t, t ∈ tasks ∧ nt.order = t.order + 1 ∧ ∀ u ∈ tasks, u.order ≤ t.order)
      ∧ (∀ u ∈ tasks, u.order < nt.order)
      ∧ (tasksDB.getAll (tasks ++ [nt])).getLast? = some nt
      ∧ (∀ l : List TaskRecord, List.Sorted byOrder (tasksDB.getAll l)) := by
  have hspec := foldl_orderMax_spec tasks (-1)
  refine ⟨TaskRecord.mk newId b.category b.description b.completed b.pomodoros
      ((tasks.foldl (fun m t => max m ((t.order : Nat) : Int)) (-1)) + 1).toNat,
    ?_, rfl, ?_, ?_, ?_, ?_, fun l => List.sorted_insertionSort byOrder l⟩
  · simp [tasksDB.add, hFresh]
  · intro he
    subst he
    rfl
  · intro hne
    rcases hspec.2.2 with heq | hex
    · exfalso
      rcases List.exists_mem_of_ne_nil tasks hne with ⟨u, hu⟩
      have h1 := hspec.2.1 u hu
      rw [heq] at h1
      omega
    · rcases hex with ⟨t2, ht2, heq⟩
      refine ⟨t2, ht2, ?_, ?_⟩
      · show ((tasks.foldl (fun m t => max m ((t.order : Nat) : Int)) (-1)) + 1).toNat = t2.order + 1
        rw [heq]
        omega
      · intro u hu
        have h1 := hspec.2.1 u hu
        rw [heq] at h1
        exact_mod_cast h1
  · intro u hu
    have h1 := hspec.2.1 u hu
    have h2 := hspec.1
    show u.order < ((tasks.foldl (fun m t => max m ((t.order : Nat) : Int)) (-1)) + 1).toNat
    omega
  · have hperm := List.perm_insertionSort byOrder
      (tasks ++ [TaskRecord.mk newId b.category b.description b.completed b.pomodoros
        ((tasks.foldl (fun m t => max m ((t.order : Nat) : Int)) (-1)) + 1).toNat])
    refine sorted_getLast?_of_strict_max _ _
      (List.sorted_insertionSort byOrder _) (hperm.mem_iff.mpr (by simp)) ?_
    intro y hy
    have hy2 := hperm.mem_iff.mp hy
    rcases List.mem_append.mp hy2 with hyt | hyn
    · right
      have h1 := hspec.2.1 y hyt
      have h2 := hspec.1
      show y.order < ((tasks.foldl (fun m t => max m ((t.order : Nat) : Int)) (-1)) + 1).toNat
      omega
    · left
      simpa using hyn

/-- Witness for C10: adding a task to a store holding orders 0 and 5
assigns order 6 and getAll lists the new task last. -/
theorem tasksDB_add_order_getAll_last_witness :
    (c10tasks.any (fun t => t.id == "n1") = false)
    ∧ ∃ nt : TaskRecord,
        tasksDB.add "n1" c10base c10tasks = Except.ok (c10tasks ++ [nt])
        ∧ nt.id = "n1"
        ∧ (c10tasks = [] → nt.order = 0)
        ∧ (¬ c10tasks = [] → ∃ t, t ∈ c10tasks ∧ nt.order = t.order + 1 ∧ ∀ u ∈ c10tasks, u.order ≤ t.order)
        ∧ (∀ u ∈ c10tasks, u.order < nt.order)
        ∧ (tasksDB.getAll (c10tasks ++ [nt])).getLast? = some nt
        ∧ (∀ l : List TaskRecord, List.Sorted byOrder (tasksDB.getAll l)) :=
  ⟨by decide, tasksDB_add_order_getAll_last c10tasks c10base "n1" (by decide)⟩
